import Mathlib

/-!
Verification of the fetch–dedupe–deliver pipeline of a Tumblr-to-Telegram
relay bot.  The definitions below are a shallow embedding of the two Go
source files:

* `fetchers/tumblr.go` — `TumblrFetcher.getUserTimeline`, `GetPush`,
  `GoBack`, `Block`;
* the Telegram delivery file — `TelegramBot.Send`, `SendAll`.

External collaborators (HTTP, the storm key-value store, the go-cache TTL
map, the telebot transport) are modelled as explicit parameters:
 - the HTTP fetch plus JSON decode as an `Except String TumblrPosts` value,
 - the block registry (`DB` namespace "block") as an association list,
 - the dedup cache as a list of seen keys (insert = cons, membership =
   `List.contains`),
 - the cursor store (`DB` namespace "last_update") as an `Option Int`,
 - a `DB.Set` outcome as a `setOk : Bool` flag,
 - the outbound transport as an oracle `SendAction → Option String`
   returning the error of each send.

Go run-time panics (out-of-range slicing) are modelled by `Option`:
`none` is a panic.  Machine integers (`int64`, `int`) are modelled as
`Int`; none of the verified paths overflow-wrap.
-/

namespace TgBot

/-- Modelled from the spec: the resource model declarations (`Resource`,
`ReplyMessage`, the media-kind tags `TIMAGE`/`TVIDEO`, `BaseFetcher`) live
in a repository file that is not under `src/`; the spec describes a
deliverable resource as `{url, kind ∈ {Image, Video}, captionSourceURL}`.
The kind is a Go integer constant, so it is a `Nat` here; any value other
than `TIMAGE`/`TVIDEO` is an unrecognized kind. -/
def TIMAGE : Nat := 1

/-- Modelled from the spec: the Video media-kind tag (see `TIMAGE`). -/
def TVIDEO : Nat := 2

/-- Modelled from the spec: one deliverable media asset
`{url, kind, captionSourceURL}` (Go `Resource`, constructed positionally in
`getUserTimeline`). -/
structure Resource where
  URL : String
  T : Nat
  Caption : String
deriving Repr, DecidableEq

/-- Modelled from the spec: a composed reply message
`{resources, caption, error}` (Go `ReplyMessage`). -/
structure ReplyMessage where
  Resources : List Resource
  Caption : String
  Err : Option String
deriving Repr, DecidableEq

/-- A decoded JSON `interface{}` value as far as the Go type assertions in
`getUserTimeline` can observe it: a string, an `int64`, or anything else
(numbers decoded as `float64`, `null`, …). -/
inductive GoVal where
  | vstr (s : String)
  | vint (n : Int)
  | vother
deriving Repr, DecidableEq

/-- One entry of a post's reblog trail; only `Post.ID` is read. -/
structure TrailEntry where
  postID : GoVal
deriving Repr, DecidableEq

/-- One embedded photo; only `OriginalSize.URL` is read. -/
structure Photo where
  url : String
deriving Repr, DecidableEq

/-- The fields of a decoded Tumblr post that `getUserTimeline` reads. -/
structure Post where
  type : String
  id : Int
  timestamp : Int
  shortURL : String
  trail : List TrailEntry
  videoURL : String
  photos : List Photo
deriving Repr, DecidableEq

/-- The decoded API payload: `Meta.Status` and `Response.Posts`. -/
structure TumblrPosts where
  metaStatus : Int
  posts : List Post
deriving Repr, DecidableEq

/-- The block registry: the storm `DB` namespace `"block"`, an association
list from key to stored boolean; `DB.Get` is `List.lookup` (a missing key
is a `Get` error), `DB.Set` conses the new binding. -/
abbrev BlockDB := List (String × Bool)

/-- `strconv.FormatInt(n, 10)`. -/
def formatInt (n : Int) : String := toString n

/-- `strings.Split(s, "/")`: the maximal list of substrings separated by
`'/'`, empty segments preserved (`[""]` for the empty string). -/
def goSplitSlash (s : String) : List String :=
  (s.data.splitOn '/').map String.mk

/-- `strings.ToLower` (the source only lower-cases ASCII suffixes). -/
def goToLower (s : String) : String := String.mk (s.data.map Char.toLower)

/-- `strings.HasSuffix`. -/
def goHasSuffix (s sfx : String) : Bool := sfx.data.isSuffixOf s.data

/-- Lines 111–123 of `getUserTimeline`: the canonical message id.
Defaults to the post's own id; when the trail has more than one entry
(`len(p.Trail) > 1`), a non-empty string id of the first trail entry
replaces it, and then a non-zero `int64` id of the same entry replaces
that in turn (the two type assertions run in sequence). -/
def msgidOf (p : Post) : String :=
  let m0 := formatInt p.id
  match p.trail with
  | t0 :: _ :: _ =>
    let m1 := match t0.postID with
      | .vstr s => if s = "" then m0 else s
      | _ => m0
    match t0.postID with
    | .vint n => if n = 0 then m1 else formatInt n
    | _ => m1
  | _ => m0

/-- Lines 133–136: classify a photo URL — Video iff the lower-cased URL
ends in `".gif"`, else Image. -/
def classify (url : String) : Nat :=
  if goHasSuffix (goToLower url) ".gif" then TVIDEO else TIMAGE

/-- Line 149: the `Resource` built from one photo. -/
def mkPhotoRes (photo : Photo) : Resource :=
  ⟨photo.url, classify photo.url, photo.url⟩

/-- Lines 138–147: the block check for one photo.  Split the URL on "/";
with at least 4 segments, look up `user ++ "@" ++ segment[3]` in the block
registry; the photo is dropped exactly when the lookup succeeds with value
`true`. -/
def photoKept (db : BlockDB) (user : String) (photo : Photo) : Bool :=
  let strsplit := goSplitSlash photo.url
  if 4 ≤ strsplit.length then
    match db.lookup (user ++ "@" ++ strsplit.getD 3 "") with
    | some true => false
    | _ => true
  else true

/-- Lines 131–153: the resource list of one post — the kept photos in
feed order, then the direct video URL (unconditionally) when non-empty. -/
def postResources (db : BlockDB) (user : String) (p : Post) : List Resource :=
  let res := (p.photos.filter (fun ph => photoKept db user ph)).map mkPhotoRes
  if p.videoURL = "" then res else res ++ [⟨p.videoURL, TVIDEO, p.videoURL⟩]

/-- Lines 103–158: the post loop of `getUserTimeline`.  Skips non
photo/video posts, breaks at the first post older than the cursor,
dedupes on `user ++ "@" ++ msgid` against the cache (skip, no mutation,
when found; insert before building resources when not), and emits one
`ReplyMessage` per post with a non-empty resource list.  Returns the
emitted messages together with the final cache. -/
def timelineLoop (db : BlockDB) (user : String) (tm : Int) :
    List Post → List String → List ReplyMessage × List String
  | [], cache => ([], cache)
  | p :: ps, cache =>
    if p.type ≠ "photo" ∧ p.type ≠ "video" then
      timelineLoop db user tm ps cache
    else if p.timestamp < tm then
      ([], cache)
    else
      let msgid := user ++ "@" ++ msgidOf p
      if cache.contains msgid then
        timelineLoop db user tm ps cache
      else
        let res := postResources db user p
        let out := timelineLoop db user tm ps (msgid :: cache)
        (if 0 < res.length then ⟨res, p.shortURL, none⟩ :: out.1 else out.1, out.2)

/-- Lines 83–160: `getUserTimeline`.  An empty API key, an HTTP/decode
failure (the `resp` parameter), or a non-200 `Meta.Status` yield an empty
result with an error and an unchanged cache; otherwise the post loop
runs.  Result: `(messages, error, cache)`. -/
def getUserTimeline (key : String) (resp : Except String TumblrPosts)
    (db : BlockDB) (user : String) (tm : Int) (cache : List String) :
    List ReplyMessage × Option String × List String :=
  if key = "" then ([], some "Need API key.", cache)
  else
    match resp with
    | .error e => ([], some e, cache)
    | .ok posts =>
      if posts.metaStatus ≠ 200 then ([], some "Tumblr api error.", cache)
      else
        let out := timelineLoop db user tm posts.posts cache
        (out.1, none, out.2)

/-- Lines 168–173 of `GetPush`: fetch each followed source in order with
the shared cursor, appending a source's messages exactly when its fetch
returned no error; the dedup cache threads through the calls. -/
def getPushLoop (key : String) (feeds : String → Except String TumblrPosts)
    (db : BlockDB) (last : Int) :
    List String → List String → List ReplyMessage × List String
  | [], cache => ([], cache)
  | u :: us, cache =>
    let r := getUserTimeline key (feeds u) db u last cache
    let rest := getPushLoop key feeds db last us r.2.2
    ((match r.2.1 with
      | none => r.1 ++ rest.1
      | some _ => rest.1), rest.2)

/-- The observable outcome of one `GetPush` call. -/
structure PushOut where
  ret : List ReplyMessage
  didWrite : Bool
  stored : Option Int
  cache : List String
deriving Repr, DecidableEq

/-- Lines 162–178: `GetPush`.  Reads the stored cursor (`0` when the
`DB.Get` fails, i.e. `stored = none`), runs the per-source loop, and
writes `now` as the new cursor exactly when the combined result is
non-empty (`len(ret) != 0`). -/
def GetPush (key : String) (feeds : String → Except String TumblrPosts)
    (db : BlockDB) (now : Int) (stored : Option Int)
    (followings : List String) (cache : List String) : PushOut :=
  let last := stored.getD 0
  let r := getPushLoop key feeds db last followings cache
  if r.1.length ≠ 0 then ⟨r.1, true, some now, r.2⟩
  else ⟨r.1, false, stored, r.2⟩

/-- Lines 180–186: `GoBack`.  Rejects `back > now` with an error and no
write; otherwise stores `now - back` and returns the `DB.Set` outcome
(`setOk = false` models a failing `Set`, which returns its error and
leaves the stored value unchanged). -/
def GoBack (stored : Option Int) (setOk : Bool) (now back : Int) :
    Option String × Option Int :=
  if back > now then (some "Back too long!", stored)
  else if setOk then (none, some (now - back))
  else (some "set failed", stored)

/-- Lines 188–196: `Block`.  Split the caption on "/"; with at least 4
segments, `DB.Set` the key `userid ++ "@" ++ segment[3]` to `true` —
ignoring the `Set` outcome (`setOk`) — and return the confirmation
string; otherwise return the unrecognized-caption string with no write. -/
def Block (db : BlockDB) (setOk : Bool) (userid caption : String) :
    String × BlockDB :=
  let strsplit := goSplitSlash caption
  if 4 ≤ strsplit.length then
    let imghash := userid ++ "@" ++ strsplit.getD 3 ""
    (imghash ++ " blocked.", if setOk then (imghash, true) :: db else db)
  else ("Unrecognized image caption.", db)

/-! ## Delivery dispatcher (`TelegramBot.Send`) -/

/-- A telebot media value: `tb.Photo` or `tb.Video` built `FromURL` with a
caption. -/
inductive Media where
  | photo (url caption : String)
  | video (url caption : String)
deriving Repr, DecidableEq

/-- One outbound transport call: `Bot.Send` with a single media value
(`none` is a nil `tb.InputMedia` interface), `Bot.Send` with a plain text,
or `Bot.SendAlbum`. -/
inductive SendAction where
  | media (m : Option Media)
  | text (s : String)
  | album (files : List Media)
deriving Repr, DecidableEq

/-- The media value for one resource: a photo for `TIMAGE`, a video for
`TVIDEO`, nothing for an unrecognized kind. -/
def mkMedia (r : Resource) (cap : String) : Option Media :=
  if r.T = TIMAGE then some (.photo r.URL cap)
  else if r.T = TVIDEO then some (.video r.URL cap)
  else none

/-- Lines 66–68 of `Send`: when `len(Caption) >= 190`, take
`Caption[:191]` — which panics (`none`) unless the caption has at least
191 characters. -/
def truncCaptionGo (c : String) : Option String :=
  if 190 ≤ c.length then
    if 191 ≤ c.length then some (c.take 191) else none
  else some c

/-- `MaxAlbumSize`, the Telegram album limit. -/
def MaxAlbumSize : Nat := 10

/-- The album loop `for i := 0; i < len; i += MaxAlbumSize` slices
`Resources[i:min(i+10, len)]`: consecutive chunks of at most 10.  `fuel`
bounds the iteration count; `goChunks` supplies `l.length`, which is
enough since each iteration consumes at least one element. -/
def goChunksF : Nat → List Resource → List (List Resource)
  | _, [] => []
  | 0, _ :: _ => []
  | fuel + 1, r :: rs =>
    (r :: rs).take MaxAlbumSize :: goChunksF fuel ((r :: rs).drop MaxAlbumSize)

/-- The batches of the album loop, in order. -/
def goChunks (l : List Resource) : List (List Resource) :=
  goChunksF l.length l

/-- One iteration of the album loop (lines 97–113): build the album for
one batch — `continue` drops an unrecognized-kind resource —, call
`SendAlbum`, and keep the last failing album's error in `ret`. -/
def albumStep (oracle : SendAction → Option String) (cap : String)
    (acc : List SendAction × Option String) (batch : List Resource) :
    List SendAction × Option String :=
  let album := batch.filterMap (fun r => mkMedia r cap)
  let a := SendAction.album album
  (acc.1 ++ [a], match oracle a with | some e => some e | none => acc.2)

/-- Lines 60–115: `TelegramBot.Send`, with the transport as an `oracle`
giving each send's error.  Returns `none` on a run-time panic, else the
sequence of transport calls made and the error returned to the caller.
 - an error-bearing message short-circuits;
 - one resource: truncate the caption (`truncCaptionGo`), build the media
   value, send it (a nil media is still sent — the constructed
   "Undefined message type." error is overwritten by the transport's
   result) and return the transport's error;
 - zero resources: send the caption as text; on error return it, on
   success fall through to the (empty) album loop and return nil;
 - otherwise: per chunk of 10, build the album by dropping
   unrecognized-kind resources, send it; the returned error is the last
   failing album's error, nil when none failed. -/
def Send (oracle : SendAction → Option String) (msg : ReplyMessage) :
    Option (List SendAction × Option String) :=
  match msg.Err with
  | some e => some ([], some e)
  | none =>
    match msg.Resources with
    | [r] =>
      match truncCaptionGo msg.Caption with
      | none => none
      | some cap =>
        let a := SendAction.media (mkMedia r cap)
        some ([a], oracle a)
    | [] =>
      let a := SendAction.text msg.Caption
      (match oracle a with
       | some e => some ([a], some e)
       | none => some ([a], none))
    | rs =>
      some ((goChunks rs).foldl (albumStep oracle msg.Caption) ([], none))

end TgBot

namespace TgBot

/-! ## Claim theorems -/

/-- A reblog post with a one-entry trail: own id 999, first (only) trail
entry carrying string id "12345". -/
def c1post : Post :=
  ⟨"photo", 999, 100, "s", [⟨.vstr "12345"⟩], "", [⟨"http://h/x/p.jpg"⟩]⟩

/-- C1 (counterexample): the claim says every post that carries a reblog
trail takes the first trail entry's post id as its canonical identity and
so dedupes against it.  `c1post` carries a (one-entry) trail whose first
entry has string id "12345", yet its canonical id is its own id "999",
and fetching it against a cache already holding `u@12345` still emits the
message instead of deduping: the code only consults the trail when
`len(p.Trail) > 1`. -/
theorem c1_trail_id_counterexample :
    msgidOf c1post = "999" ∧ msgidOf c1post ≠ "12345" ∧
      (timelineLoop [] "u" 0 [c1post] ["u@12345"]).1 ≠ [] := by
  refine ⟨rfl, by decide, by decide⟩

/-- C1 (amended): for a post whose reblog trail has **more than one
entry**, the canonical item identity is the first trail entry's post id
when present — a non-empty string id is taken as-is (and, the id being a
single JSON value, it cannot simultaneously be a populated `int64`) — and
the post's own id otherwise; such a post with first-trail-entry string id
`s` dedupes against a prior post with canonical id `s` regardless of its
own numeric id: the fetch loop skips it, mutating nothing. -/
theorem c1_trail_id_amended (u s : String) (t0 t1 : TrailEntry)
    (trs : List TrailEntry) (p : Post) (db : BlockDB) (tm : Int)
    (cache : List String)
    (htr : p.trail = t0 :: t1 :: trs) (hid : t0.postID = .vstr s)
    (hs : s ≠ "") (hty : p.type = "photo" ∨ p.type = "video")
    (htm : tm ≤ p.timestamp)
    (hc : cache.contains (u ++ "@" ++ s) = true) :
    msgidOf p = s ∧ timelineLoop db u tm [p] cache = ([], cache) := by
  have hmsg : msgidOf p = s := by
    simp only [msgidOf, htr, hid]
    simp [hs]
  refine ⟨hmsg, ?_⟩
  have hty' : ¬(p.type ≠ "photo" ∧ p.type ≠ "video") := by
    rcases hty with h | h <;> simp [h]
  have htm' : ¬(p.timestamp < tm) := not_lt.mpr htm
  have hc' : (u ++ "@" ++ s) ∈ cache := by simpa using hc
  simp [timelineLoop, hty', htm', hmsg, hc']

/-- C1 (witness for the amended theorem): a two-entry-trail post with own
id 999 and first-entry string id "12345" is deduped against `u@12345`. -/
theorem c1_trail_id_amended_witness :
    msgidOf ⟨"photo", 999, 100, "s", [⟨.vstr "12345"⟩, ⟨.vother⟩], "", [⟨"http://h/x/p.jpg"⟩]⟩
        = "12345" ∧
      timelineLoop [] "u" 0
        [⟨"photo", 999, 100, "s", [⟨.vstr "12345"⟩, ⟨.vother⟩], "", [⟨"http://h/x/p.jpg"⟩]⟩]
        ["u@12345"] = ([], ["u@12345"]) :=
  c1_trail_id_amended "u" "12345" ⟨.vstr "12345"⟩ ⟨.vother⟩ [] _ [] 0 ["u@12345"]
    rfl rfl (by decide) (Or.inl rfl) (by decide) (by decide)

/-- A caption of exactly 190 characters. -/
def cap190 : String := String.mk (List.replicate 190 'a')

set_option maxRecDepth 4000

/-- C2 (code bug): the claim says the single-resource caption truncation
succeeds for captions of any length.  The code guards with
`len(Caption) >= 190` but slices `Caption[:191]`, so a caption of exactly
190 characters trips an out-of-range slice: `Send` panics (`none`) on a
single-resource message with a 190-character caption, for any resource
and any transport. -/
theorem c2_truncation_panics_at_190 :
    cap190.length = 190 ∧ truncCaptionGo cap190 = none ∧
      Send (fun _ => none) ⟨[⟨"http://h/x/p.jpg", TIMAGE, ""⟩], cap190, none⟩ = none := by
  have h : truncCaptionGo cap190 = none := by decide
  refine ⟨by decide, h, ?_⟩
  simp [Send, h]

/-- A single-resource message whose resource kind (5) is neither `TIMAGE`
nor `TVIDEO`. -/
def c3msg : ReplyMessage := ⟨[⟨"http://h/x/p.bin", 5, ""⟩], "cap", none⟩

/-- C3 (code bug): the claim says an unrecognized resource kind makes
`Send` return the unsupported-media error and drop the item without
sending.  In the code the constructed "Undefined message type." error is
immediately overwritten by `_, err = Bot.Send(to, mediaFile)`: the send
is attempted with a nil media value, and with a transport that reports
success `Send` returns no error at all. -/
theorem c3_unknown_kind_error_discarded :
    (c3msg.Resources.getD 0 ⟨"", 0, ""⟩).T ≠ TIMAGE ∧
      (c3msg.Resources.getD 0 ⟨"", 0, ""⟩).T ≠ TVIDEO ∧
      Send (fun _ => none) c3msg = some ([SendAction.media none], none) := by
  refine ⟨by decide, by decide, rfl⟩

/-- C8: `GoBack` rejects a rewind larger than the current time with an
error and no write; otherwise (with the store succeeding) it stores
exactly `now - back` and returns no error. -/
theorem c8_goback (stored : Option Int) (now back : Int) :
    (back > now → GoBack stored true now back = (some "Back too long!", stored)) ∧
      (back ≤ now → GoBack stored true now back = (none, some (now - back))) := by
  constructor
  · intro h; simp [GoBack, h]
  · intro h; simp [GoBack, not_lt.mpr h]

/-- C8 (witness): `rewind(user, 3600)` at now = 1700000000 stores
1699996400; `rewind(user, 99999999999)` errors and leaves the stored
cursor (here 5) unchanged. -/
theorem c8_goback_witness :
    GoBack (some 5) true 1700000000 3600 = (none, some 1699996400) ∧
      GoBack (some 5) true 1700000000 99999999999 =
        (some "Back too long!", some 5) := by
  constructor
  · have h := (c8_goback (some 5) 1700000000 3600).2 (by decide)
    simpa using h
  · exact (c8_goback (some 5) 1700000000 99999999999).1 (by decide)

end TgBot

namespace TgBot

/-- Prepending a fixed string is injective (used for block-registry keys
`user ++ "@" ++ fragment`). -/
theorem string_append_cancel_left (u a b : String) (h : u ++ a = u ++ b) :
    a = b := by
  have h2 : (u ++ a).data = (u ++ b).data := by rw [h]
  simp only [String.data_append] at h2
  exact String.ext (List.append_cancel_left h2)

/-- C9: `Block` with a caption splitting into fewer than 4 "/"-segments
returns the unrecognized-caption string and writes nothing, for any
store outcome; with at least 4 segments (and the store succeeding) it
returns the confirmation built from the derived key
`subscriberID ++ "@" ++ segment[3]` and that key is stored with value
`true`. -/
theorem c9_block_command (db : BlockDB) (u caption : String) (setOk : Bool) :
    ((goSplitSlash caption).length < 4 →
      Block db setOk u caption = ("Unrecognized image caption.", db)) ∧
    (4 ≤ (goSplitSlash caption).length →
      (Block db true u caption).1 =
          (u ++ "@" ++ (goSplitSlash caption).getD 3 "") ++ " blocked." ∧
        (Block db true u caption).2.lookup
            (u ++ "@" ++ (goSplitSlash caption).getD 3 "") = some true) := by
  constructor
  · intro h
    simp [Block, Nat.not_le.mpr h]
  · intro h
    simp [Block, h]

/-- C9 (witness): blocking `"http://h/abcfrag/x"` for `alice` stores
`alice@abcfrag` and confirms; a slash-free caption is rejected without a
write. -/
theorem c9_block_command_witness :
    Block [] true "alice" "nofrag" = ("Unrecognized image caption.", []) ∧
      ((Block [] true "alice" "http://h/abcfrag/x").1
          = ("alice" ++ "@" ++ (goSplitSlash "http://h/abcfrag/x").getD 3 "") ++ " blocked." ∧
        (Block [] true "alice" "http://h/abcfrag/x").2.lookup
          ("alice" ++ "@" ++ (goSplitSlash "http://h/abcfrag/x").getD 3 "") = some true) :=
  ⟨(c9_block_command [] "alice" "nofrag" true).1 (by decide),
   (c9_block_command [] "alice" "http://h/abcfrag/x" true).2 (by decide)⟩

/-- C10: with at least 4 "/"-segments, `Block` returns the
`"… blocked."` confirmation no matter what the persistence write does —
the `DB.Set` result is discarded — and when the write fails the registry
is unchanged, so the confirmation does not imply the entry was stored. -/
theorem c10_block_confirmation_unconditional (db : BlockDB)
    (u caption : String) (setOk : Bool)
    (h : 4 ≤ (goSplitSlash caption).length) :
    (Block db setOk u caption).1 =
        (u ++ "@" ++ (goSplitSlash caption).getD 3 "") ++ " blocked." ∧
      (setOk = false → (Block db setOk u caption).2 = db) := by
  constructor
  · simp [Block, h]
  · intro hs
    simp [Block, h, hs]

/-- C10 (witness): a failing write still yields
`"alice@abcfrag blocked."` while the registry stays empty. -/
theorem c10_block_confirmation_unconditional_witness :
    (Block [] false "alice" "http://h/abcfrag/x").1
        = ("alice" ++ "@" ++ (goSplitSlash "http://h/abcfrag/x").getD 3 "") ++ " blocked." ∧
      ((false = false) → (Block [] false "alice" "http://h/abcfrag/x").2 = []) :=
  c10_block_confirmation_unconditional [] "alice" "http://h/abcfrag/x" false (by decide)

/-- `List.lookup` on an association list, one cons step. -/
theorem lookup_cons_key {β : Type} (a k : String) (v : β) (es : List (String × β)) :
    List.lookup a ((k, v) :: es) = if a = k then some v else List.lookup a es := by
  by_cases h : a = k
  · simp [List.lookup, h]
  · have hb : (a == k) = false := beq_eq_false_iff_ne.mpr h
    simp [List.lookup, hb, h]

/-- A photo whose block key is newly stored as `true` is dropped. -/
theorem photoKept_blocked (db : BlockDB) (u : String) (ph : Photo) (k : String)
    (hp : 4 ≤ (goSplitSlash ph.url).length)
    (hkey : (u ++ "@" ++ (goSplitSlash ph.url).getD 3 "") = k) :
    photoKept ((k, true) :: db) u ph = false := by
  simp only [photoKept]
  rw [if_pos hp, lookup_cons_key, if_pos hkey]

/-- A block entry under a different key leaves a photo's fate unchanged. -/
theorem photoKept_frame (db : BlockDB) (u k : String) (v : Bool) (ph : Photo)
    (hkey : (u ++ "@" ++ (goSplitSlash ph.url).getD 3 "") ≠ k) :
    photoKept ((k, v) :: db) u ph = photoKept db u ph := by
  simp only [photoKept]
  by_cases hp : 4 ≤ (goSplitSlash ph.url).length
  · rw [if_pos hp, if_pos hp, lookup_cons_key, if_neg hkey]
  · rw [if_neg hp, if_neg hp]

/-- C6: after `Block` records the 4th "/"-segment `s` of a caption for
`u` (write succeeding), in every subsequent fetch for `u`:
 1. a photo whose URL has at least 4 segments with 4th segment `s` is
    excluded;
 2. a photo whose 4th segment differs from `s` (or is absent) and was
    kept before stays kept — only the blocked fragment is affected;
 3. a fresh eligible post still yields one `ReplyMessage` whose resource
    list is exactly the kept photos (in order) plus the direct video; so
    the blocked photo alone is dropped, not the whole post, and the
    other resources ride in the same message. -/
theorem c6_block_excludes_exactly (db : BlockDB) (u caption : String)
    (hlen : 4 ≤ (goSplitSlash caption).length) :
    (∀ ph : Photo, 4 ≤ (goSplitSlash ph.url).length →
        (goSplitSlash ph.url).getD 3 "" = (goSplitSlash caption).getD 3 "" →
        photoKept ((Block db true u caption).2) u ph = false) ∧
    (∀ ph : Photo,
        (goSplitSlash ph.url).getD 3 "" ≠ (goSplitSlash caption).getD 3 "" →
        photoKept db u ph = true →
        photoKept ((Block db true u caption).2) u ph = true) ∧
    (∀ (p : Post) (cache : List String) (tm : Int),
        (p.type = "photo" ∨ p.type = "video") → ¬(p.timestamp < tm) →
        ¬((u ++ "@" ++ msgidOf p) ∈ cache) →
        0 < (postResources ((Block db true u caption).2) u p).length →
        (timelineLoop ((Block db true u caption).2) u tm [p] cache).1 =
          [⟨postResources ((Block db true u caption).2) u p, p.shortURL, none⟩]) ∧
    (∀ p : Post, postResources ((Block db true u caption).2) u p =
        ((p.photos.filter
            (fun ph => photoKept ((Block db true u caption).2) u ph)).map mkPhotoRes) ++
          (if p.videoURL = "" then [] else [⟨p.videoURL, TVIDEO, p.videoURL⟩])) := by
  have hdb : (Block db true u caption).2 =
      (u ++ "@" ++ (goSplitSlash caption).getD 3 "", true) :: db := by
    simp [Block, hlen]
  refine ⟨?_, ?_, ?_, ?_⟩
  · intro ph hp hseg
    rw [hdb]
    exact photoKept_blocked db u ph _ hp (by rw [hseg])
  · intro ph hseg hkept
    have hkey : (u ++ "@" ++ (goSplitSlash ph.url).getD 3 "") ≠
        (u ++ "@" ++ (goSplitSlash caption).getD 3 "") := by
      intro h
      exact hseg (string_append_cancel_left (u ++ "@") _ _ h)
    rw [hdb, photoKept_frame db u _ true ph hkey]
    exact hkept
  · intro p cache tm hty htm hc
    intro hres
    have hty' : ¬(p.type ≠ "photo" ∧ p.type ≠ "video") := by
      rcases hty with h | h <;> simp [h]
    simp [timelineLoop, hty', htm, hc, hres]
  · intro p
    by_cases hv : p.videoURL = "" <;> simp [postResources, hv]

/-- C6 (witness): with `alice@abcfrag` blocked, the photo
`"http://w/abcfrag/q.jpg"` is excluded while `"http://w/otherfrag/q.jpg"`
(kept in the empty registry) stays kept. -/
theorem c6_block_excludes_exactly_witness :
    photoKept ((Block [] true "alice" "http://h/abcfrag/x").2) "alice"
        ⟨"http://w/abcfrag/q.jpg"⟩ = false ∧
      photoKept ((Block [] true "alice" "http://h/abcfrag/x").2) "alice"
        ⟨"http://w/otherfrag/q.jpg"⟩ = true :=
  ⟨(c6_block_excludes_exactly [] "alice" "http://h/abcfrag/x" (by decide)).1
      ⟨"http://w/abcfrag/q.jpg"⟩ (by decide) (by decide),
   (c6_block_excludes_exactly [] "alice" "http://h/abcfrag/x" (by decide)).2.1
      ⟨"http://w/otherfrag/q.jpg"⟩ (by decide) (by decide)⟩

end TgBot

namespace TgBot

/-- The dedup cache only grows through the post loop: a key already in
the cache is still in the final cache. -/
theorem timelineLoop_cache_mono (db : BlockDB) (u : String) (tm : Int) :
    ∀ (ps : List Post) (cache : List String) (s : String),
      s ∈ cache → s ∈ (timelineLoop db u tm ps cache).2 := by
  intro ps
  induction ps with
  | nil => intro cache s h; simpa [timelineLoop] using h
  | cons p ps ih =>
    intro cache s h
    by_cases hty : p.type ≠ "photo" ∧ p.type ≠ "video"
    · simpa [timelineLoop, hty] using ih cache s h
    · by_cases htm : p.timestamp < tm
      · simpa [timelineLoop, hty, htm] using h
      · by_cases hc : (u ++ "@" ++ msgidOf p) ∈ cache
        · simpa [timelineLoop, hty, htm, hc] using ih cache s h
        · simpa [timelineLoop, hty, htm, hc] using
            ih ((u ++ "@" ++ msgidOf p) :: cache) s (List.mem_cons_of_mem _ h)

/-- Re-running the post loop on its own final cache emits nothing and
leaves the cache untouched: each enumerated post put its key in the cache
the first time round (whether or not it produced a message), and a cached
key makes the loop skip without mutating. -/
theorem timelineLoop_idem (db : BlockDB) (u : String) (tm : Int) :
    ∀ (ps : List Post) (cache : List String),
      timelineLoop db u tm ps ((timelineLoop db u tm ps cache).2) =
        ([], (timelineLoop db u tm ps cache).2) := by
  intro ps
  induction ps with
  | nil => intro cache; simp [timelineLoop]
  | cons p ps ih =>
    intro cache
    by_cases hty : p.type ≠ "photo" ∧ p.type ≠ "video"
    · simpa [timelineLoop, hty] using ih cache
    · by_cases htm : p.timestamp < tm
      · simp [timelineLoop, hty, htm]
      · by_cases hc : (u ++ "@" ++ msgidOf p) ∈ cache
        · have hc1 : (u ++ "@" ++ msgidOf p) ∈ (timelineLoop db u tm ps cache).2 :=
            timelineLoop_cache_mono db u tm ps cache _ hc
          simp [timelineLoop, hty, htm, hc, hc1, ih cache]
        · have hc1 : (u ++ "@" ++ msgidOf p) ∈
              (timelineLoop db u tm ps ((u ++ "@" ++ msgidOf p) :: cache)).2 :=
            timelineLoop_cache_mono db u tm ps _ _ (List.mem_cons_self _ _)
          simp [timelineLoop, hty, htm, hc, hc1,
            ih ((u ++ "@" ++ msgidOf p) :: cache)]

/-- C4: with the API key, remote feed, source and cursor unchanged, a
second `getUserTimeline` call returns no messages and leaves the dedup
cache exactly as the first call left it — every eligible item was marked
seen on first enumeration (even when dropped for having zero deliverable
resources), and an already-seen item is skipped with no cache mutation.
Error paths (missing key, transport/decode failure, non-200 status)
return empty results and never touch the cache, so the statement holds
for them as well. -/
theorem c4_fetch_idempotent (key : String) (resp : Except String TumblrPosts)
    (db : BlockDB) (user : String) (tm : Int) (cache : List String) :
    (getUserTimeline key resp db user tm
        (getUserTimeline key resp db user tm cache).2.2).1 = [] ∧
      (getUserTimeline key resp db user tm
        (getUserTimeline key resp db user tm cache).2.2).2.2 =
        (getUserTimeline key resp db user tm cache).2.2 := by
  by_cases hk : key = ""
  · simp [getUserTimeline, hk]
  · cases resp with
    | error e => simp [getUserTimeline, hk]
    | ok posts =>
      by_cases hs : posts.metaStatus ≠ 200
      · simp [getUserTimeline, hk, hs]
      · have h := timelineLoop_idem db user tm posts.posts cache
        simp [getUserTimeline, hk, hs, h]

end TgBot


namespace TgBot

/-- A feed with one photo post timestamped 2000. -/
def c5feed : String → Except String TumblrPosts :=
  fun _ => .ok ⟨200, [⟨"photo", 7, 2000, "s", [], "", [⟨"http://h/x/p.jpg"⟩]⟩]⟩

/-- C5 (counterexample): the claim says `GetPush` never decreases the
stored cursor.  With stored cursor 1000 and current time 500 (a stored
cursor above the current time is reachable: `GoBack` accepts a negative
`back` and stores `now - back` in the future), a feed post timestamped
2000 is returned, so the cursor is rewritten to "now" = 500 — below its
previous value 1000. -/
theorem c5_cursor_decrease_counterexample :
    (GetPush "k" c5feed [] 500 (some 1000) ["u"] []).didWrite = true ∧
      (GetPush "k" c5feed [] 500 (some 1000) ["u"] []).stored = some 500 ∧
      (500 : Int) < 1000 :=
  ⟨rfl, rfl, by decide⟩

/-- C5 (amended): `GetPush` writes the stored cursor — setting it to the
current time — if and only if the combined returned sequence is
non-empty; when every source fails or yields nothing the stored cursor is
untouched; and provided the stored cursor does not exceed the current
time (true whenever the clock is monotone and rewinds are by nonnegative
amounts), the stored cursor never decreases. -/
theorem c5_cursor_write_iff (key : String)
    (feeds : String → Except String TumblrPosts) (db : BlockDB)
    (now : Int) (stored : Option Int) (followings : List String)
    (cache : List String) :
    ((GetPush key feeds db now stored followings cache).didWrite = true ↔
        (GetPush key feeds db now stored followings cache).ret ≠ []) ∧
      ((GetPush key feeds db now stored followings cache).didWrite = true →
        (GetPush key feeds db now stored followings cache).stored = some now) ∧
      ((GetPush key feeds db now stored followings cache).ret = [] →
        (GetPush key feeds db now stored followings cache).stored = stored) ∧
      (∀ v, stored = some v → v ≤ now →
        ∀ w, (GetPush key feeds db now stored followings cache).stored = some w →
          v ≤ w) := by
  by_cases h : (getPushLoop key feeds db (stored.getD 0) followings cache).1.length ≠ 0
  · have hne : (getPushLoop key feeds db (stored.getD 0) followings cache).1 ≠ [] := by
      intro he
      exact h (by rw [he]; rfl)
    have hout : GetPush key feeds db now stored followings cache =
        ⟨(getPushLoop key feeds db (stored.getD 0) followings cache).1, true, some now,
          (getPushLoop key feeds db (stored.getD 0) followings cache).2⟩ := by
      simp [GetPush, h]
    rw [hout]
    refine ⟨by simp [hne], fun _ => rfl, fun he => absurd he hne, ?_⟩
    intro v hv hvn w hw
    have hw' : some now = some w := hw
    injection hw' with hnw
    exact hnw ▸ hvn
  · have hnil : (getPushLoop key feeds db (stored.getD 0) followings cache).1 = [] :=
      List.length_eq_zero.mp (not_ne_iff.mp h)
    have hout : GetPush key feeds db now stored followings cache =
        ⟨(getPushLoop key feeds db (stored.getD 0) followings cache).1, false, stored,
          (getPushLoop key feeds db (stored.getD 0) followings cache).2⟩ := by
      simp [GetPush, h]
    rw [hout]
    refine ⟨by simp [hnil], fun hco => absurd hco Bool.false_ne_true, fun _ => rfl, ?_⟩
    intro v hv hvn w hw
    have hw' : stored = some w := hw
    rw [hv] at hw'
    injection hw' with hvw
    exact hvw ▸ le_refl v

/-- C5 (witness for the amended theorem): with every source failing
(`.error` feed), `GetPush` returns nothing, does not write, and leaves
the stored cursor 3 unchanged. -/
theorem c5_cursor_write_iff_witness :
    (GetPush "k" (fun _ => .error "net") [] 10 (some 3) ["u"] []).stored = some 3 ∧
      ((3 : Int) ≤ 10 → ∀ w,
        (GetPush "k" (fun _ => .error "net") [] 10 (some 3) ["u"] []).stored = some w →
        (3 : Int) ≤ w) :=
  ⟨(c5_cursor_write_iff "k" (fun _ => .error "net") [] 10 (some 3) ["u"] []).2.2.1 rfl,
   fun h3 => (c5_cursor_write_iff "k" (fun _ => .error "net") [] 10 (some 3) ["u"] []).2.2.2
     3 rfl h3⟩

end TgBot

namespace TgBot

/-- The chunking is fuel-irrelevant once the fuel covers the length. -/
theorem goChunksF_fuel : ∀ (fuel fuel' : Nat) (l : List Resource),
    l.length ≤ fuel → l.length ≤ fuel' → goChunksF fuel l = goChunksF fuel' l := by
  intro fuel
  induction fuel with
  | zero =>
    intro fuel' l h h'
    have hl : l = [] := List.length_eq_zero.mp (Nat.le_zero.mp h)
    subst hl
    cases fuel' <;> simp [goChunksF]
  | succ f ih =>
    intro fuel' l h h'
    cases l with
    | nil => cases fuel' <;> simp [goChunksF]
    | cons r rs =>
      cases fuel' with
      | zero => simp at h'
      | succ f' =>
        simp only [goChunksF]
        congr 1
        apply ih
        · rw [List.length_drop]
          simp only [List.length_cons] at h ⊢
          simp only [MaxAlbumSize]
          omega
        · rw [List.length_drop]
          simp only [List.length_cons] at h' ⊢
          simp only [MaxAlbumSize]
          omega

/-- Unfolding one batch of `goChunks`. -/
theorem goChunks_cons (r : Resource) (rs : List Resource) :
    goChunks (r :: rs) =
      (r :: rs).take MaxAlbumSize :: goChunks ((r :: rs).drop MaxAlbumSize) := by
  show goChunksF (r :: rs).length (r :: rs) = _
  simp only [List.length_cons, goChunksF]
  congr 1
  apply goChunksF_fuel
  · rw [List.length_drop]
    simp only [List.length_cons, MaxAlbumSize]
    omega
  · exact le_refl _

/-- Concatenating the batches gives back the resource list: the album
loop covers every resource exactly once, in order. -/
theorem goChunksF_join : ∀ (fuel : Nat) (l : List Resource),
    l.length ≤ fuel → (goChunksF fuel l).flatten = l := by
  intro fuel
  induction fuel with
  | zero =>
    intro l h
    have hl : l = [] := List.length_eq_zero.mp (Nat.le_zero.mp h)
    subst hl
    simp [goChunksF]
  | succ f ih =>
    intro l h
    cases l with
    | nil => simp [goChunksF]
    | cons r rs =>
      simp only [goChunksF, List.flatten_cons]
      rw [ih _ (by
        rw [List.length_drop]
        simp only [List.length_cons] at h ⊢
        simp only [MaxAlbumSize]
        omega)]
      exact List.take_append_drop _ _

/-- Every batch is non-empty and no longer than `MaxAlbumSize`. -/
theorem goChunksF_mem : ∀ (fuel : Nat) (l b : List Resource),
    l.length ≤ fuel → b ∈ goChunksF fuel l →
    b ≠ [] ∧ b.length ≤ MaxAlbumSize := by
  intro fuel
  induction fuel with
  | zero =>
    intro l b h hb
    have hl : l = [] := List.length_eq_zero.mp (Nat.le_zero.mp h)
    subst hl
    simp [goChunksF] at hb
  | succ f ih =>
    intro l b h hb
    cases l with
    | nil => simp [goChunksF] at hb
    | cons r rs =>
      simp only [goChunksF, List.mem_cons] at hb
      rcases hb with hb | hb
      · subst hb
        constructor
        · simp [MaxAlbumSize]
        · exact List.length_take_le _ _
      · exact ih _ _ (by
          rw [List.length_drop]
          simp only [List.length_cons] at h ⊢
          simp only [MaxAlbumSize]
          omega) hb

/-- The actions accumulated by the album loop: one `SendAlbum` per batch,
in batch order, regardless of transport outcomes. -/
theorem albumFold_actions (oracle : SendAction → Option String) (cap : String) :
    ∀ (batches : List (List Resource)) (acc : List SendAction) (e : Option String),
      (batches.foldl (albumStep oracle cap) (acc, e)).1 =
        acc ++ batches.map
          (fun b => SendAction.album (b.filterMap (fun r => mkMedia r cap))) := by
  intro batches
  induction batches with
  | nil => intro acc e; simp
  | cons b bs ih =>
    intro acc e
    simp only [List.foldl_cons, List.map_cons]
    rw [albumStep, ih]
    simp

/-- `filterMap` is the plain map when the function is total on the list. -/
theorem filterMap_eq_map_of_some {α β : Type} (f : α → Option β) (g : α → β) :
    ∀ l : List α, (∀ x ∈ l, f x = some (g x)) → l.filterMap f = l.map g := by
  intro l
  induction l with
  | nil => intro _; simp
  | cons x xs ih =>
    intro h
    rw [List.filterMap_cons, h x (List.mem_cons_self _ _), List.map_cons,
      ih (fun y hy => h y (List.mem_cons_of_mem _ hy))]

/-- The media value of a recognized-kind resource (the statement-side
companion of `mkMedia`). -/
def mediaOf (r : Resource) (cap : String) : Media :=
  if r.T = TIMAGE then .photo r.URL cap else .video r.URL cap

/-- On recognized kinds `mkMedia` never drops. -/
theorem mkMedia_of_recognized (r : Resource) (cap : String)
    (h : r.T = TIMAGE ∨ r.T = TVIDEO) : mkMedia r cap = some (mediaOf r cap) := by
  rcases h with h | h <;> simp [mkMedia, mediaOf, h, TIMAGE, TVIDEO]

/-- C7: for an error-free message with at least two resources, all of
recognized kind, `Send` dispatches exactly one `SendAlbum` per batch —
the batches are the consecutive chunks of at most `MaxAlbumSize` (= 10)
resources, in order (their concatenation is the original list, each
non-empty), and each album carries the media of its whole batch. -/
theorem c7_album_batching (oracle : SendAction → Option String)
    (rs : List Resource) (cap : String) (hlen : 2 ≤ rs.length)
    (hkind : ∀ r ∈ rs, r.T = TIMAGE ∨ r.T = TVIDEO) :
    (∃ e, Send oracle ⟨rs, cap, none⟩ =
        some ((goChunks rs).map
          (fun b => SendAction.album (b.map (fun r => mediaOf r cap))), e)) ∧
      (goChunks rs).flatten = rs ∧
      ∀ b ∈ goChunks rs, b ≠ [] ∧ b.length ≤ MaxAlbumSize := by
  have hjoin : (goChunks rs).flatten = rs := goChunksF_join rs.length rs (le_refl _)
  have hmem : ∀ b ∈ goChunks rs, b ≠ [] ∧ b.length ≤ MaxAlbumSize :=
    fun b hb => goChunksF_mem rs.length rs b (le_refl _) hb
  refine ⟨?_, hjoin, hmem⟩
  have hbatch : ∀ b ∈ goChunks rs,
      SendAction.album (b.filterMap (fun r => mkMedia r cap)) =
        SendAction.album (b.map (fun r => mediaOf r cap)) := by
    intro b hb
    congr 1
    apply filterMap_eq_map_of_some
    intro x hx
    apply mkMedia_of_recognized
    apply hkind
    rw [← hjoin]
    exact List.mem_flatten.mpr ⟨b, hb, hx⟩
  obtain ⟨r1, rs1, rfl⟩ : ∃ r1 rs1, rs = r1 :: rs1 := by
    cases rs with
    | nil => simp at hlen
    | cons a l => exact ⟨a, l, rfl⟩
  obtain ⟨r2, rs2, rfl⟩ : ∃ r2 rs2, rs1 = r2 :: rs2 := by
    cases rs1 with
    | nil => simp at hlen
    | cons a l => exact ⟨a, l, rfl⟩
  refine ⟨((goChunks (r1 :: r2 :: rs2)).foldl
    (albumStep oracle cap) ([], none)).2, ?_⟩
  have hsend : Send oracle ⟨r1 :: r2 :: rs2, cap, none⟩ =
      some ((goChunks (r1 :: r2 :: rs2)).foldl (albumStep oracle cap) ([], none)) :=
    rfl
  rw [hsend]
  congr 1
  refine Prod.ext ?_ rfl
  rw [albumFold_actions]
  simp only [List.nil_append]
  exact List.map_congr_left hbatch

/-- C7 (witness): a 23-image message dispatches albums over batches of
sizes [10, 10, 3]. -/
theorem c7_album_batching_witness :
    ((goChunks (List.replicate 23 (⟨"u", TIMAGE, ""⟩ : Resource))).map
        List.length = [10, 10, 3]) ∧
      ((∃ e, Send (fun _ => none)
          ⟨List.replicate 23 (⟨"u", TIMAGE, ""⟩ : Resource), "c", none⟩ =
          some ((goChunks (List.replicate 23 (⟨"u", TIMAGE, ""⟩ : Resource))).map
            (fun b => SendAction.album (b.map (fun r => mediaOf r "c"))), e)) ∧
        (goChunks (List.replicate 23 (⟨"u", TIMAGE, ""⟩ : Resource))).flatten =
          List.replicate 23 (⟨"u", TIMAGE, ""⟩ : Resource) ∧
        ∀ b ∈ goChunks (List.replicate 23 (⟨"u", TIMAGE, ""⟩ : Resource)),
          b ≠ [] ∧ b.length ≤ MaxAlbumSize) :=
  ⟨by decide,
   c7_album_batching (fun _ => none) (List.replicate 23 ⟨"u", TIMAGE, ""⟩) "c"
     (by decide) (by decide)⟩

end TgBot
